import Mathlib

/-!
Verification of the ONNX Runtime layout-transpose rewrite extension layer
(`core/optimizer/transpose_optimization/ort_transpose_optimization.cc`) and of
the training-API `Module` constructor input classification loop
(`orttraining/training_api/module.cc`), via a shallow embedding in Lean 4.

Pure decision logic is embedded as Lean functions; imperative graph mutation
performed by the handlers is embedded as an explicit trace of abstract effects
(each effect corresponding to one mutating call in the source), and the node
replacement primitive `SwapNodeImpl` is embedded as a concrete transformation
on a functional graph model.
-/

/-- Element types of tensor values, mirroring `api::DataType` (only the members
this layer inspects are distinguished; the rest are represented by `OTHER`). -/
inductive DataType where
  | UNDEFINED
  | FLOAT
  | UINT8
  | INT8
  | INT32
  | INT64
  | OTHER
deriving DecidableEq

/-- An attribute value. The handlers in this layer only read integer and string
attributes. -/
inductive AttrValue where
  | int (i : Int)
  | str (s : String)
deriving DecidableEq

/-- A graph node, mirroring the fields of `api::NodeRef` that this layer reads
or writes: operator type, domain, opset version, ordered inputs and outputs
(an empty string denotes an absent optional output), attributes, and the
assigned execution provider. `id` is the node's identity in the graph. -/
structure Node where
  id : Nat
  op_type : String
  domain : String
  since_version : Int
  inputs : List String
  outputs : List String
  attrs : List (String × AttrValue)
  ep : String
deriving DecidableEq

/-- Value info, mirroring `api::ValueInfoRef`: element type and optional
(statically known) shape. -/
structure ValueInfo where
  dtype : DataType
  shape : Option (List Int)

/-- The graph model: the node list plus the value-info lookup
(`GraphRef::GetValueInfo`). -/
structure Graph where
  nodes : List Node
  valueInfo : String → ValueInfo

/-- `NodeRef::GetAttributeIntDefault`: the integer attribute `name`, or
`default` when absent (or not an integer). -/
def Node.GetAttributeIntDefault (n : Node) (name : String) (default : Int) : Int :=
  match n.attrs.lookup name with
  | some (AttrValue.int i) => i
  | _ => default

/-- `NodeRef::GetAttributeString`: the string attribute `name` when present. -/
def Node.GetAttributeString (n : Node) (name : String) : Option String :=
  match n.attrs.lookup name with
  | some (AttrValue.str s) => some s
  | _ => none

/-- Modelled from the spec: `NodeRef::IsOp` (operator identity test; the
definition lives outside the provided sources). -/
def Node.IsOp (n : Node) (op : String) : Bool :=
  n.op_type == op

/-- The producer of a (non-empty) value name in the graph: the first node
whose output list contains the name, together with the output slot index. -/
def Graph.producer (g : Graph) (name : String) : Option (Nat × Nat) :=
  g.nodes.findSome? (fun n => (n.outputs.findIdx? (fun s => s == name)).map (fun j => (n.id, j)))

/-
`SwapNodeImpl` (ort_transpose_optimization.cc, lines 191-204):

    auto outputs = node.Outputs();
    auto new_node = graph.CopyNode(node, op_type, domain, since_version);
    for (size_t j = 0; j < outputs.size(); ++j) {
      if (outputs[j] != "") {
        graph.MoveOutput(node, j, *new_node, j);
      }
    }
    graph.RemoveNode(node);
    return new_node;

`CopyNode`, `MoveOutput` and `RemoveNode` are graph capabilities from the
external optimizer API (spec section 6). `CopyNode` is modelled as producing a
structural copy of the node's inputs and attributes under the new identity
with all output slots initially unclaimed; `MoveOutput` re-points output slot
`j` of the old node to slot `j` of the new node; `RemoveNode` removes the old
node. `freshId` is the identity the graph assigns to the copied node.
-/

/-- Modelled from the spec: `GraphRef::CopyNode` — a structural copy of the
node's inputs and attributes under the new op type / domain / version (absent
version = keep existing), with fresh (initially empty) output slots. -/
def Graph.CopyNode (node : Node) (op_type domain : String)
    (since_version : Option Int) (freshId : Nat) : Node :=
  { node with
    id := freshId
    op_type := op_type
    domain := domain
    since_version := since_version.getD node.since_version
    outputs := node.outputs.map (fun _ => "") }

/-- Modelled from the spec: `GraphRef::MoveOutput` restricted to the use in
`SwapNodeImpl` — re-point output slot `j` of the old node (whose output list
is `outputs`) to output slot `j` of the new node. -/
def Graph.MoveOutput (outputs : List String) (new_node : Node) (j : Nat) : Node :=
  { new_node with outputs := new_node.outputs.set j (outputs.getD j "") }

/-- The internal swap routine `SwapNodeImpl`: copy the node under the new
identity, move every non-empty output slot across (slot-for-slot), remove the
old node. Returns the updated graph and the new node. -/
def SwapNodeImpl (graph : Graph) (node : Node) (op_type domain : String)
    (since_version : Option Int) (freshId : Nat) : Graph × Node :=
  let outputs := node.outputs
  let copied := Graph.CopyNode node op_type domain since_version freshId
  let new_node := (List.range outputs.length).foldl
    (fun n j => if outputs.getD j "" ≠ "" then Graph.MoveOutput outputs n j else n) copied
  ({ graph with nodes := (graph.nodes ++ [new_node]).filter (fun m => m.id ≠ node.id) },
   new_node)

/-- `SwapNodeOpTypeAndDomain`: thin wrapper over `SwapNodeImpl` keeping the
existing opset version. -/
def SwapNodeOpTypeAndDomain (graph : Graph) (node : Node) (op_type domain : String)
    (freshId : Nat) : Graph × Node :=
  SwapNodeImpl graph node op_type domain none freshId

/-- `SwapNodeOpTypeDomainAndSinceVersion`: thin wrapper over `SwapNodeImpl`
with an explicit opset version. -/
def SwapNodeOpTypeDomainAndSinceVersion (graph : Graph) (node : Node)
    (op_type domain : String) (since_version : Int) (freshId : Nat) : Graph × Node :=
  SwapNodeImpl graph node op_type domain (some since_version) freshId

/-- Modelled from the spec: `ChannelLastToFirstPerm(rank)` (the function lives
outside the provided sources). For `rank ≥ 2` the result is
`[0, rank-1, 1, 2, ..., rank-2]` (move the last axis to position 1); the spec
leaves `rank < 2` undefined, so nothing is asserted about those values. -/
def ChannelLastToFirstPerm (rank : Nat) : List Int :=
  (0 : Int) :: ((rank : Int) - 1) :: (List.range (rank - 2)).map (fun i => (i : Int) + 1)

/-- Which node a mutating call targets: the node the handler was invoked on,
or the replacement node produced by the swap primitive. -/
inductive EffectTarget where
  | original
  | replacement
deriving DecidableEq

/-- One mutating call a handler performs, in source order. A handler that
returns `false` performs no mutation, so its trace is `[]`. -/
inductive Effect where
  | swapNode (op_type domain : String) (since_version : Option Int)
  | clearAttr (target : EffectTarget) (name : String)
  | setAttrInt (target : EffectTarget) (name : String) (value : Int)
  | transposeFirstInput (target : EffectTarget) (perm : List Int)
  | transposeOutputs (target : EffectTarget) (perm : List Int)
deriving DecidableEq

/-- `OptimizerCtx`: the fields this layer reads — the graph and the provider
the optimizer is running for. -/
structure OptimizerCtx where
  graph : Graph
  provider_type : String

/-- `HandlerArgs`: per-invocation context — optimizer context, matched node,
the pushed permutation and its inverse. -/
structure HandlerArgs where
  ctx : OptimizerCtx
  node : Node
  perm : List Int
  perm_inv : List Int

/-- Modelled from the spec: execution-provider identifier constants from
`core/graph/constants.h` / `core/framework/utils.h` (outside the provided
sources). -/
def kCpuExecutionProvider : String := "CPUExecutionProvider"

/-- Modelled from the spec: the CUDA execution-provider identifier. -/
def kCudaExecutionProvider : String := "CUDAExecutionProvider"

/-- Modelled from the spec: the ROCm execution-provider identifier. -/
def kRocmExecutionProvider : String := "ROCMExecutionProvider"

/-- Modelled from the spec: the QNN execution-provider identifier. -/
def kQnnExecutionProvider : String := "QNNExecutionProvider"

/-- Modelled from the spec: the internal-testing execution-provider
identifier. -/
def kInternalTestingExecutionProvider : String := "InternalTestingExecutionProvider"

/-- `EPsWithLayoutSensitiveResize` (lines 152-161): the execution providers
that require Resize to stay in the current layout. -/
def EPsWithLayoutSensitiveResize : List String :=
  [kCudaExecutionProvider, kRocmExecutionProvider, kQnnExecutionProvider,
   kInternalTestingExecutionProvider]

/-- `EPAwareHandleResize` (lines 15-27). The generic `HandleResize` is an
external collaborator, passed as the parameter `handleResize`. -/
def EPAwareHandleResize (handleResize : HandlerArgs → Bool × List Effect)
    (args : HandlerArgs) : Bool × List Effect :=
  if args.ctx.provider_type = "" ∨ args.ctx.provider_type ∈ EPsWithLayoutSensitiveResize then
    (false, [])
  else
    handleResize args

/-- `HandleQLinearPoolOp` (lines 59-72): swap between channel first/last
variants when the pushed permutation matches the node's current
`channels_last` setting. -/
def HandleQLinearPoolOp (args : HandlerArgs) : Bool × List Effect :=
  let channels_last := args.node.GetAttributeIntDefault "channels_last" 0
  let rank := args.perm.length
  if rank < 2 then (false, [])
  else
    let p := ChannelLastToFirstPerm rank
    if (channels_last = 0 ∧ args.perm = p) ∨ (channels_last ≠ 0 ∧ args.perm_inv = p) then
      (true,
       [Effect.setAttrInt EffectTarget.original "channels_last" (1 - channels_last),
        Effect.transposeFirstInput EffectTarget.original args.perm_inv,
        Effect.transposeOutputs EffectTarget.original args.perm])
    else (false, [])

/-- `HandleMaxPool` (lines 76-103): rewrite a CPU MaxPool without a used
indices output and with an 8-bit output type into `com.microsoft.NhwcMaxPool`
when the pushed permutation is the canonical channel-last-to-first one. -/
def HandleMaxPool (args : HandlerArgs) : Bool × List Effect :=
  if args.node.ep ≠ "CPUExecutionProvider" then (false, [])
  else
    let outputs := args.node.outputs
    if outputs.length = 2 ∧ outputs.getD 1 "" ≠ "" then (false, [])
    else
      let dtype := (args.ctx.graph.valueInfo (outputs.getD 0 "")).dtype
      if dtype ≠ DataType.UINT8 ∧ dtype ≠ DataType.INT8 then (false, [])
      else
        let rank := args.perm.length
        if args.perm ≠ ChannelLastToFirstPerm rank then (false, [])
        else
          (true,
           [Effect.swapNode "NhwcMaxPool" "com.microsoft" (some 1),
            Effect.clearAttr EffectTarget.replacement "storage_order",
            Effect.transposeFirstInput EffectTarget.replacement args.perm_inv,
            Effect.transposeOutputs EffectTarget.replacement args.perm])

/-- Instrumentation of `HandleMaxPool`'s guard sequence: the rank at which the
handler reaches the `ChannelLastToFirstPerm` call on line 94 (`some rank` with
`rank = args.perm.length`), or `none` when one of the three earlier guards
(provider, used indices output, output element type) returns first. The
guards are verbatim those of `HandleMaxPool`. -/
def HandleMaxPoolPermCheckRank (args : HandlerArgs) : Option Nat :=
  if args.node.ep ≠ "CPUExecutionProvider" then none
  else
    let outputs := args.node.outputs
    if outputs.length = 2 ∧ outputs.getD 1 "" ≠ "" then none
    else
      let dtype := (args.ctx.graph.valueInfo (outputs.getD 0 "")).dtype
      if dtype ≠ DataType.UINT8 ∧ dtype ≠ DataType.INT8 then none
      else some args.perm.length

/-- Instrumentation of `HandleQLinearPoolOp`'s guard sequence: the rank at
which it reaches the `ChannelLastToFirstPerm` call on line 64, or `none` when
the `rank < 2` guard on line 63 returns first. -/
def HandleQLinearPoolOpPermCheckRank (args : HandlerArgs) : Option Nat :=
  if args.perm.length < 2 then none
  else some args.perm.length

/-- The handler descriptors of this translation unit, identified by the name
of the `constexpr HandlerInfo` constant each registry entry refers to (the
function-pointer pairs themselves are opaque to the registry). -/
inductive HandlerInfoTag where
  | ep_aware_resize_handler
  | q_linear_concat_handler
  | q_linear_binary_op_handler
  | q_linear_pool_op_handler
  | max_pool_op_handler
  | node_1_inp_handler
  | reduce_op_handler
deriving DecidableEq

/-- A handler registry: operator key (optionally domain-qualified) to handler
descriptor. -/
abbrev HandlerMap : Type := List (String × HandlerInfoTag)

/-- `std::unordered_map::insert`: adds the entry only when the key is not
already present. -/
def HandlerMap.insertEntry (m : HandlerMap) (e : String × HandlerInfoTag) : HandlerMap :=
  if (List.lookup e.1 m).isSome then m else m ++ [e]

/-- `OrtHandlers` (lines 110-116): the baseline registry. -/
def OrtHandlers : HandlerMap :=
  [("Resize", HandlerInfoTag.ep_aware_resize_handler)]

/-- `OrtExtendedHandlers` (lines 118-139): the extended registry — the contrib
and special-cased entries, into which every baseline entry is inserted. -/
def OrtExtendedHandlers : HandlerMap :=
  let map : HandlerMap :=
    [("MaxPool", HandlerInfoTag.max_pool_op_handler),
     ("com.microsoft.QLinearAdd", HandlerInfoTag.q_linear_binary_op_handler),
     ("com.microsoft.QLinearAveragePool", HandlerInfoTag.q_linear_pool_op_handler),
     ("com.microsoft.QLinearConcat", HandlerInfoTag.q_linear_concat_handler),
     ("com.microsoft.QLinearGlobalAveragePool", HandlerInfoTag.q_linear_pool_op_handler),
     ("com.microsoft.QLinearLeakyRelu", HandlerInfoTag.node_1_inp_handler),
     ("com.microsoft.QLinearMul", HandlerInfoTag.q_linear_binary_op_handler),
     ("com.microsoft.QLinearReduceMean", HandlerInfoTag.reduce_op_handler),
     ("com.microsoft.QLinearSigmoid", HandlerInfoTag.node_1_inp_handler)]
  OrtHandlers.foldl HandlerMap.insertEntry map

/-- Modelled from the spec: the tri-state cost-check outcome
(`onnx_transpose_optimization::CostCheckResult`, outside the provided
sources): force-push, force-no-push, defer to the default heuristic. -/
inductive CostCheckResult where
  | kStop
  | kPushTranspose
  | kFallThrough
deriving DecidableEq

/-- `OrtEPCostCheck` (lines 163-189): special-case MaxPool and Resize on the
CPU execution provider. -/
def OrtEPCostCheck (graph : Graph) (node : Node) (perm : List Int)
    (outputs_leading_to_transpose : List String) : CostCheckResult :=
  if node.ep = kCpuExecutionProvider then
    if node.IsOp "MaxPool" then CostCheckResult.kPushTranspose
    else
      if node.IsOp "Resize" then
        let X_value_info := graph.valueInfo (node.inputs.getD 0 "")
        let X_shape := X_value_info.shape
        let X_dtype := X_value_info.dtype
        let mode := node.GetAttributeString "mode"
        if X_shape.map List.length = some 4 ∧
            (X_dtype = DataType.UINT8 ∨ X_dtype = DataType.INT8) ∧
            mode = some "linear" then
          CostCheckResult.kPushTranspose
        else CostCheckResult.kFallThrough
      else CostCheckResult.kFallThrough
  else CostCheckResult.kFallThrough

/-- A training parameter (`training::api::Parameter`): whether its data is
allocated, whether it requires a gradient, the `OrtValue` returned by
`Data()`, and the `OrtValue` that `Gradient()` returns once the gradient
buffer has been allocated. `OrtValue`s are modelled as opaque identifiers. -/
structure Parameter where
  data_allocated : Bool
  requires_grad : Bool
  data : Nat
  gradient : Nat
deriving DecidableEq

/-- `Parameter::AllocateGrad` (module.cc, lines 16-23): enforce that the data
is allocated and the parameter requires a gradient, record the gradient name,
and allocate the gradient buffer. `ORT_ENFORCE` failures are modelled as
`Except.error`. -/
def Parameter.AllocateGrad (p : Parameter) (gradient_name : String) :
    Except String (Parameter × String) :=
  if ¬ p.data_allocated then Except.error "data not allocated"
  else if ¬ p.requires_grad then Except.error "requires_grad is false"
  else Except.ok (p, gradient_name)

/-- The state the `Module` constructor loop (module.cc, lines 70-94) builds:
the three name partitions and the `weights_` / `gradients_` value lists. -/
structure ModuleInitState where
  param_input_names : List String
  grad_input_names : List String
  user_input_names : List String
  weights : List Nat
  gradients : List Nat
deriving DecidableEq

/-- The empty state at loop entry. -/
def ModuleInitState.empty : ModuleInitState :=
  { param_input_names := []
    grad_input_names := []
    user_input_names := []
    weights := []
    gradients := [] }

/-- One iteration of the `Module` constructor loop (module.cc, lines 72-91):
classify one training-graph input name. `parameters` is the parameter table
`parameters_`; `getParamNameFromGradient` is the external
`GetParamNameFromGradient` utility (declared in `utils.h`, outside the
provided sources), kept abstract. The `else` branch of the inner lookup is
the source's silent `// raise error here.` branch. -/
def moduleProcessInput (parameters : List (String × Parameter))
    (getParamNameFromGradient : String → Option String)
    (st : ModuleInitState) (input_name : String) : Except String ModuleInitState :=
  match List.lookup input_name parameters with
  | some p =>
      Except.ok { st with
        param_input_names := st.param_input_names ++ [input_name]
        weights := st.weights ++ [p.data] }
  | none =>
      match getParamNameFromGradient input_name with
      | some param_name =>
          match List.lookup param_name parameters with
          | some p =>
              match p.AllocateGrad input_name with
              | Except.ok (p2, _) =>
                  Except.ok { st with
                    grad_input_names := st.grad_input_names ++ [input_name]
                    gradients := st.gradients ++ [p2.gradient] }
              | Except.error e => Except.error e
          | none =>
              Except.ok { st with grad_input_names := st.grad_input_names ++ [input_name] }
      | none =>
          Except.ok { st with user_input_names := st.user_input_names ++ [input_name] }

/-- The `Module` constructor loop over all training-graph input names
(module.cc, lines 70-91). -/
def moduleProcessTrainInputs (parameters : List (String × Parameter))
    (getParamNameFromGradient : String → Option String)
    (train_input_names : List String) : Except String ModuleInitState :=
  train_input_names.foldlM (moduleProcessInput parameters getParamNameFromGradient)
    ModuleInitState.empty

/-- The reordered `train_input_names_` the constructor ends with (module.cc,
lines 92-94): user inputs, then parameter inputs, then gradient inputs. -/
def moduleTrainInputNames (st : ModuleInitState) : List String :=
  st.user_input_names ++ st.param_input_names ++ st.grad_input_names

/-- The feeds `Module::TrainStep` passes to the session (module.cc, lines
113-119): the user inputs, then `weights_`, then `gradients_`, then the
reset-grad flag value. -/
def moduleTrainStepFeeds (inputs : List Nat) (st : ModuleInitState)
    (reset_grad_input : Nat) : List Nat :=
  inputs ++ st.weights ++ st.gradients ++ [reset_grad_input]

/-! ### Helper lemmas for the node replacement primitive -/

/-- The output-moving loop of `SwapNodeImpl` never changes the non-output
fields of the node it builds. -/
theorem swapMoveLoop_preserves_fields (outputs : List String) (js : List Nat) (n : Node) :
    (js.foldl (fun n j => if outputs.getD j "" ≠ "" then Graph.MoveOutput outputs n j else n) n).id = n.id ∧
    (js.foldl (fun n j => if outputs.getD j "" ≠ "" then Graph.MoveOutput outputs n j else n) n).op_type = n.op_type ∧
    (js.foldl (fun n j => if outputs.getD j "" ≠ "" then Graph.MoveOutput outputs n j else n) n).domain = n.domain ∧
    (js.foldl (fun n j => if outputs.getD j "" ≠ "" then Graph.MoveOutput outputs n j else n) n).since_version = n.since_version ∧
    (js.foldl (fun n j => if outputs.getD j "" ≠ "" then Graph.MoveOutput outputs n j else n) n).inputs = n.inputs ∧
    (js.foldl (fun n j => if outputs.getD j "" ≠ "" then Graph.MoveOutput outputs n j else n) n).attrs = n.attrs := by
  induction js generalizing n with
  | nil => exact ⟨rfl, rfl, rfl, rfl, rfl, rfl⟩
  | cons j js ih =>
    simp only [List.foldl_cons]
    obtain ⟨h1, h2, h3, h4, h5, h6⟩ :=
      ih (if outputs.getD j "" ≠ "" then Graph.MoveOutput outputs n j else n)
    rw [h1, h2, h3, h4, h5, h6]
    split <;> exact ⟨rfl, rfl, rfl, rfl, rfl, rfl⟩

/-- The output-moving loop of `SwapNodeImpl`, seen on the output lists. -/
theorem swapMoveLoop_outputs (outputs : List String) (js : List Nat) (n : Node) :
    (js.foldl (fun n j => if outputs.getD j "" ≠ "" then Graph.MoveOutput outputs n j else n) n).outputs =
      js.foldl (fun o j => if outputs.getD j "" ≠ "" then o.set j (outputs.getD j "") else o) n.outputs := by
  induction js generalizing n with
  | nil => rfl
  | cons j js ih =>
    simp only [List.foldl_cons]
    rw [ih]
    congr 1
    split <;> rfl

/-- The list-level output-moving loop preserves length. -/
theorem setLoop_length (outputs : List String) (js : List Nat) (o : List String) :
    (js.foldl (fun o j => if outputs.getD j "" ≠ "" then o.set j (outputs.getD j "") else o) o).length =
      o.length := by
  induction js generalizing o with
  | nil => rfl
  | cons j js ih =>
    simp only [List.foldl_cons]
    rw [ih]
    split <;> simp

/-- `getD` with default `""` in range is plain indexing. -/
theorem getD_str_of_lt (l : List String) (k : Nat) (h : k < l.length) :
    l.getD k "" = l.get ⟨k, h⟩ := by
  rw [List.getD_eq_getElem?_getD, List.getElem?_eq_getElem h]
  rfl

/-- `getD` with default `""` out of range is `""`. -/
theorem getD_str_of_ge (l : List String) (k : Nat) (h : l.length ≤ k) :
    l.getD k "" = "" := by
  rw [List.getD_eq_getElem?_getD, List.getElem?_eq_none h]
  rfl

/-- Pointwise description of the list-level output-moving loop over
`List.range m`. -/
theorem setLoop_getElem (outputs : List String) :
    ∀ (m : Nat) (o : List String), o.length = outputs.length → ∀ (k : Nat),
      ((List.range m).foldl
          (fun o j => if outputs.getD j "" ≠ "" then o.set j (outputs.getD j "") else o) o)[k]? =
        if k < m ∧ outputs.getD k "" ≠ "" then some (outputs.getD k "") else o[k]? := by
  intro m
  induction m with
  | zero =>
    intro o _ k
    simp
  | succ m ih =>
    intro o ho k
    rw [List.range_succ, List.foldl_append, List.foldl_cons, List.foldl_nil]
    have hlen : ((List.range m).foldl
        (fun o j => if outputs.getD j "" ≠ "" then o.set j (outputs.getD j "") else o) o).length =
        outputs.length := by
      rw [setLoop_length]; exact ho
    by_cases hm : outputs.getD m "" ≠ ""
    · rw [if_pos hm, List.getElem?_set, hlen, ih o ho k]
      by_cases hkm : m = k
      · subst hkm
        have hlt2 : m < outputs.length := by
          rcases Nat.lt_or_ge m outputs.length with h | h
          · exact h
          · exact absurd (getD_str_of_ge outputs m h) hm
        rw [if_pos rfl, if_pos hlt2, if_pos ⟨Nat.lt_succ_self m, hm⟩]
      · rw [if_neg hkm]
        by_cases hk : k < m
        · by_cases hp : outputs.getD k "" ≠ ""
          · rw [if_pos ⟨hk, hp⟩, if_pos ⟨Nat.lt_succ_of_lt hk, hp⟩]
          · rw [if_neg (fun h => hp h.2), if_neg (fun h => hp h.2)]
        · have hks : ¬ k < m + 1 := by omega
          rw [if_neg (fun h => hk h.1), if_neg (fun h => hks h.1)]
    · rw [if_neg hm, ih o ho k]
      have hout : outputs.getD m "" = "" := not_ne_iff.mp hm
      by_cases hk : k < m
      · by_cases hp : outputs.getD k "" ≠ ""
        · rw [if_pos ⟨hk, hp⟩, if_pos ⟨Nat.lt_succ_of_lt hk, hp⟩]
        · rw [if_neg (fun h => hp h.2), if_neg (fun h => hp h.2)]
      · by_cases hkm : k = m
        · subst hkm
          rw [if_neg (fun h => hk h.1), if_neg (fun h => h.2 hout)]
        · have hks : ¬ k < m + 1 := by omega
          rw [if_neg (fun h => hk h.1), if_neg (fun h => hks h.1)]

/-- The new node built by `SwapNodeImpl` carries exactly the old node's output
list: every non-empty slot is moved across slot-for-slot and every empty slot
stays empty. -/
theorem swapNodeImpl_outputs (graph : Graph) (node : Node) (op_type domain : String)
    (since_version : Option Int) (freshId : Nat) :
    (SwapNodeImpl graph node op_type domain since_version freshId).2.outputs = node.outputs := by
  unfold SwapNodeImpl
  simp only
  rw [swapMoveLoop_outputs]
  have hinit : (Graph.CopyNode node op_type domain since_version freshId).outputs =
      node.outputs.map (fun _ => "") := rfl
  rw [hinit]
  apply List.ext_getElem?
  intro k
  rw [setLoop_getElem node.outputs (node.outputs.length) (node.outputs.map (fun _ => ""))
    (by simp) k]
  by_cases hk : k < node.outputs.length
  · by_cases hne : node.outputs.getD k "" ≠ ""
    · rw [if_pos ⟨hk, hne⟩, getD_str_of_lt node.outputs k hk, List.getElem?_eq_getElem hk]
      rfl
    · have hout : node.outputs.getD k "" = "" := not_ne_iff.mp hne
      rw [if_neg (fun h => hne h.2), List.getElem?_map, List.getElem?_eq_getElem hk]
      simp only [Option.map_some']
      rw [getD_str_of_lt node.outputs k hk] at hout
      simp only [List.get_eq_getElem] at hout
      rw [hout]
  · have hge : node.outputs.length ≤ k := by omega
    rw [if_neg (fun h => hk h.1), List.getElem?_map, List.getElem?_eq_none hge]
    rfl

/-- The non-output fields of the node produced by `SwapNodeImpl`: inputs and
attributes are copied, the identity fields are the requested ones, and an
absent version keeps the old node's version. -/
theorem swapNodeImpl_new_fields (graph : Graph) (node : Node) (op_type domain : String)
    (since_version : Option Int) (freshId : Nat) :
    (SwapNodeImpl graph node op_type domain since_version freshId).2.id = freshId ∧
    (SwapNodeImpl graph node op_type domain since_version freshId).2.op_type = op_type ∧
    (SwapNodeImpl graph node op_type domain since_version freshId).2.domain = domain ∧
    (SwapNodeImpl graph node op_type domain since_version freshId).2.since_version =
      since_version.getD node.since_version ∧
    (SwapNodeImpl graph node op_type domain since_version freshId).2.inputs = node.inputs ∧
    (SwapNodeImpl graph node op_type domain since_version freshId).2.attrs = node.attrs := by
  obtain ⟨h1, h2, h3, h4, h5, h6⟩ := swapMoveLoop_preserves_fields node.outputs
    (List.range node.outputs.length) (Graph.CopyNode node op_type domain since_version freshId)
  exact ⟨h1, h2, h3, h4, h5, h6⟩

/-- The node list after `SwapNodeImpl`: the new node is added and every node
with the old node's identity is filtered out. -/
theorem swapNodeImpl_graph_nodes (graph : Graph) (node : Node) (op_type domain : String)
    (since_version : Option Int) (freshId : Nat) :
    (SwapNodeImpl graph node op_type domain since_version freshId).1.nodes =
      (graph.nodes ++ [(SwapNodeImpl graph node op_type domain since_version freshId).2]).filter
        (fun m => m.id ≠ node.id) := rfl

/-- `SwapNodeImpl` removes the old node from the graph. -/
theorem swapNodeImpl_old_removed (graph : Graph) (node : Node) (op_type domain : String)
    (since_version : Option Int) (freshId : Nat) :
    node ∉ (SwapNodeImpl graph node op_type domain since_version freshId).1.nodes := by
  intro hmem
  rw [swapNodeImpl_graph_nodes] at hmem
  have h := List.mem_filter.mp hmem
  simp at h

/-- After `SwapNodeImpl`, a value the old node produced at slot `j` (and no
other node produced) is produced by the new node at slot `j`: every consumer
that looks the value up by name now reads the new node's slot `j`. -/
theorem swapNodeImpl_producer (graph : Graph) (node : Node) (op_type domain : String)
    (since_version : Option Int) (freshId : Nat) (name : String) (j : Nat)
    (hmem : node ∈ graph.nodes)
    (hfresh : ∀ m ∈ graph.nodes, m.id ≠ freshId)
    (hj : node.outputs.findIdx? (fun s => s == name) = some j)
    (hothers : ∀ m ∈ graph.nodes, m.id ≠ node.id →
      m.outputs.findIdx? (fun s => s == name) = none) :
    (SwapNodeImpl graph node op_type domain since_version freshId).1.producer name =
      some (freshId, j) := by
  have hnnid : (SwapNodeImpl graph node op_type domain since_version freshId).2.id = freshId :=
    (swapNodeImpl_new_fields graph node op_type domain since_version freshId).1
  have hnnout : (SwapNodeImpl graph node op_type domain since_version freshId).2.outputs =
      node.outputs := swapNodeImpl_outputs graph node op_type domain since_version freshId
  unfold Graph.producer
  rw [swapNodeImpl_graph_nodes, List.filter_append]
  have hpnn : (SwapNodeImpl graph node op_type domain since_version freshId).2.id ≠ node.id := by
    rw [hnnid]
    exact fun h => hfresh node hmem h.symm
  have hfilter1 : [(SwapNodeImpl graph node op_type domain since_version freshId).2].filter
      (fun m => m.id ≠ node.id) =
      [(SwapNodeImpl graph node op_type domain since_version freshId).2] := by
    simp [hpnn]
  rw [hfilter1, List.findSome?_append]
  have hnone : (graph.nodes.filter (fun m => m.id ≠ node.id)).findSome?
      (fun n => (n.outputs.findIdx? (fun s => s == name)).map (fun j => (n.id, j))) = none := by
    rw [List.findSome?_eq_none_iff]
    intro x hx
    have hx2 := List.mem_filter.mp hx
    have hxid : x.id ≠ node.id := by simpa using hx2.2
    rw [hothers x hx2.1 hxid]
    rfl
  rw [hnone, Option.none_or]
  simp only [List.findSome?_cons, hnnout, hj, Option.map_some', hnnid, List.findSome?_nil]

/-- C1: the node-replacement primitive — `SwapNodeOpTypeAndDomain` and
`SwapNodeOpTypeDomainAndSinceVersion` are thin wrappers over the one internal
routine `SwapNodeImpl` parameterized by an optional version (absent = keep
existing); `SwapNodeImpl` produces a new node copying the old node's inputs
and attributes under the new op type/domain, re-points each non-empty output
slot `j` of the old node to output slot `j` of the new node (so any other
consumer of that value now reads the new node's slot `j`), keeps empty output
slots empty without error, and removes the old node from the graph. -/
theorem claim_C1_node_replacement (graph : Graph) (node : Node) (op_type domain : String)
    (since_version : Option Int) (freshId : Nat)
    (hmem : node ∈ graph.nodes)
    (hfresh : ∀ m ∈ graph.nodes, m.id ≠ freshId) :
    (∀ version : Int,
      SwapNodeOpTypeDomainAndSinceVersion graph node op_type domain version freshId =
        SwapNodeImpl graph node op_type domain (some version) freshId) ∧
    SwapNodeOpTypeAndDomain graph node op_type domain freshId =
      SwapNodeImpl graph node op_type domain none freshId ∧
    (SwapNodeImpl graph node op_type domain since_version freshId).2.inputs = node.inputs ∧
    (SwapNodeImpl graph node op_type domain since_version freshId).2.attrs = node.attrs ∧
    (SwapNodeImpl graph node op_type domain since_version freshId).2.op_type = op_type ∧
    (SwapNodeImpl graph node op_type domain since_version freshId).2.domain = domain ∧
    (SwapNodeImpl graph node op_type domain since_version freshId).2.since_version =
      since_version.getD node.since_version ∧
    (SwapNodeImpl graph node op_type domain since_version freshId).2.outputs = node.outputs ∧
    node ∉ (SwapNodeImpl graph node op_type domain since_version freshId).1.nodes ∧
    (∀ name j, name ≠ "" →
      node.outputs.findIdx? (fun s => s == name) = some j →
      (∀ m ∈ graph.nodes, m.id ≠ node.id →
        m.outputs.findIdx? (fun s => s == name) = none) →
      (SwapNodeImpl graph node op_type domain since_version freshId).1.producer name =
        some (freshId, j)) := by
  obtain ⟨_, h2, h3, h4, h5, h6⟩ :=
    swapNodeImpl_new_fields graph node op_type domain since_version freshId
  exact ⟨fun _ => rfl, rfl, h5, h6, h2, h3, h4,
    swapNodeImpl_outputs graph node op_type domain since_version freshId,
    swapNodeImpl_old_removed graph node op_type domain since_version freshId,
    fun name j _ hj hothers =>
      swapNodeImpl_producer graph node op_type domain since_version freshId name j
        hmem hfresh hj hothers⟩

/-- A consumer node used by the replacement-primitive witness. -/
def wNodeA : Node :=
  { id := 0, op_type := "Relu", domain := "", since_version := 14,
    inputs := ["y"], outputs := ["z"], attrs := [], ep := "CPUExecutionProvider" }

/-- The node replaced in the replacement-primitive witness; its outputs are
`["y", "", "w"]`, with an empty (unused) middle slot. -/
def wNodeB : Node :=
  { id := 1, op_type := "MaxPool", domain := "", since_version := 8,
    inputs := ["x"], outputs := ["y", "", "w"],
    attrs := [("storage_order", AttrValue.int 0)], ep := "CPUExecutionProvider" }

/-- The two-node graph used by the replacement-primitive witness. -/
def wGraph : Graph :=
  { nodes := [wNodeA, wNodeB],
    valueInfo := fun _ => { dtype := DataType.UINT8, shape := none } }

/-- Witness for C1 at a concrete graph: replacing the node with outputs
`["y", "", "w"]` re-points `"y"` (slot 0) and `"w"` (slot 2) to the new node,
copies inputs and attributes, and removes the old node. -/
theorem claim_C1_node_replacement_witness :
    (SwapNodeImpl wGraph wNodeB "NhwcMaxPool" "com.microsoft" (some 1) 2).1.producer "y" =
      some (2, 0) ∧
    (SwapNodeImpl wGraph wNodeB "NhwcMaxPool" "com.microsoft" (some 1) 2).1.producer "w" =
      some (2, 2) ∧
    (SwapNodeImpl wGraph wNodeB "NhwcMaxPool" "com.microsoft" (some 1) 2).2.outputs =
      wNodeB.outputs ∧
    (SwapNodeImpl wGraph wNodeB "NhwcMaxPool" "com.microsoft" (some 1) 2).2.inputs =
      wNodeB.inputs ∧
    wNodeB ∉ (SwapNodeImpl wGraph wNodeB "NhwcMaxPool" "com.microsoft" (some 1) 2).1.nodes := by
  obtain ⟨-, -, hinp, -, -, -, -, houts, hrem, hprod⟩ :=
    claim_C1_node_replacement wGraph wNodeB "NhwcMaxPool" "com.microsoft" (some 1) 2
      (by decide) (by decide)
  exact ⟨hprod "y" 0 (by decide) (by decide) (by decide),
    hprod "w" 2 (by decide) (by decide) (by decide), houts, hinp, hrem⟩


/-- `HandleMaxPool` with its local variables inlined: the four guards in
source order, then the rewrite trace. -/
theorem handleMaxPool_spec (args : HandlerArgs) :
    HandleMaxPool args =
      if args.node.ep ≠ "CPUExecutionProvider" then (false, [])
      else if args.node.outputs.length = 2 ∧ args.node.outputs.getD 1 "" ≠ "" then (false, [])
      else if (args.ctx.graph.valueInfo (args.node.outputs.getD 0 "")).dtype ≠ DataType.UINT8 ∧
          (args.ctx.graph.valueInfo (args.node.outputs.getD 0 "")).dtype ≠ DataType.INT8 then
        (false, [])
      else if args.perm ≠ ChannelLastToFirstPerm args.perm.length then (false, [])
      else
        (true,
         [Effect.swapNode "NhwcMaxPool" "com.microsoft" (some 1),
          Effect.clearAttr EffectTarget.replacement "storage_order",
          Effect.transposeFirstInput EffectTarget.replacement args.perm_inv,
          Effect.transposeOutputs EffectTarget.replacement args.perm]) := rfl

/-- C2: the MaxPool handler performs no rewrite and returns `false` with an
empty mutation trace whenever the node's provider is not the CPU provider, or
the node (which has at most two outputs) has a non-empty second "indices"
output, or the primary output's element type is neither `UINT8` nor `INT8`,
or the pushed permutation differs from the canonical channel-last-to-first
permutation for the permutation's length. -/
theorem claim_C2_maxpool_rejects (args : HandlerArgs)
    (hwf : args.node.outputs.length ≤ 2)
    (h : args.node.ep ≠ kCpuExecutionProvider ∨
      args.node.outputs.getD 1 "" ≠ "" ∨
      ((args.ctx.graph.valueInfo (args.node.outputs.getD 0 "")).dtype ≠ DataType.UINT8 ∧
       (args.ctx.graph.valueInfo (args.node.outputs.getD 0 "")).dtype ≠ DataType.INT8) ∨
      args.perm ≠ ChannelLastToFirstPerm args.perm.length) :
    HandleMaxPool args = (false, []) := by
  rw [handleMaxPool_spec]
  split_ifs with g1 g2 g3 g4
  · rfl
  · rfl
  · rfl
  · rfl
  · exfalso
    push_neg at g1
    rcases h with hA | hB | hC | hD
    · exact hA g1
    · refine g2 ⟨?_, hB⟩
      rcases Nat.lt_or_ge args.node.outputs.length 2 with hlen | hlen
      · exact absurd (getD_str_of_ge args.node.outputs 1 (by omega)) hB
      · omega
    · exact g3 hC
    · exact g4 hD

/-- The handler arguments used by the accepting MaxPool witnesses: CPU
provider, a single non-empty `UINT8` output, and the canonical rank-4
permutation. -/
def wMaxPoolArgs : HandlerArgs :=
  { ctx := { graph := { nodes := [wNodeB],
                        valueInfo := fun _ => { dtype := DataType.UINT8, shape := none } },
             provider_type := "CPUExecutionProvider" },
    node := { id := 1, op_type := "MaxPool", domain := "", since_version := 8,
              inputs := ["x"], outputs := ["y"],
              attrs := [("storage_order", AttrValue.int 0)], ep := "CPUExecutionProvider" },
    perm := [0, 3, 1, 2], perm_inv := [0, 2, 3, 1] }

/-- Witness for C2: a MaxPool invocation on a non-CPU provider is rejected
with no mutation. -/
theorem claim_C2_maxpool_rejects_witness :
    HandleMaxPool
      { wMaxPoolArgs with node := { wMaxPoolArgs.node with ep := "CUDAExecutionProvider" } } =
      (false, []) :=
  claim_C2_maxpool_rejects
    { wMaxPoolArgs with node := { wMaxPoolArgs.node with ep := "CUDAExecutionProvider" } }
    (by decide) (Or.inl (by decide))

/-- C3: whenever the MaxPool handler performs its rewrite (returns `true`),
its mutation trace is exactly: replace the node with op type `NhwcMaxPool` in
domain `com.microsoft` at since-version 1 via the node-replacement primitive,
clear `storage_order` on the replacement node, apply the inverse permutation
to the replacement node's first input, and apply the forward permutation to
all of its outputs. -/
theorem claim_C3_maxpool_rewrite (args : HandlerArgs)
    (h : (HandleMaxPool args).1 = true) :
    HandleMaxPool args =
      (true,
       [Effect.swapNode "NhwcMaxPool" "com.microsoft" (some 1),
        Effect.clearAttr EffectTarget.replacement "storage_order",
        Effect.transposeFirstInput EffectTarget.replacement args.perm_inv,
        Effect.transposeOutputs EffectTarget.replacement args.perm]) := by
  rw [handleMaxPool_spec] at h ⊢
  split_ifs at h ⊢ with g1 g2 g3 g4
  rfl

/-- Witness for C3: on a fully eligible invocation the handler returns `true`
with exactly the swap / clear-attribute / transpose-input / transpose-outputs
trace. -/
theorem claim_C3_maxpool_rewrite_witness :
    HandleMaxPool wMaxPoolArgs =
      (true,
       [Effect.swapNode "NhwcMaxPool" "com.microsoft" (some 1),
        Effect.clearAttr EffectTarget.replacement "storage_order",
        Effect.transposeFirstInput EffectTarget.replacement [0, 2, 3, 1],
        Effect.transposeOutputs EffectTarget.replacement [0, 3, 1, 2]]) :=
  claim_C3_maxpool_rewrite wMaxPoolArgs (by decide)

/-- `HandleQLinearPoolOp` with its local variables inlined: the rank guard,
the channels-last/permutation match, then the toggle-and-transpose trace. -/
theorem handleQLinearPoolOp_spec (args : HandlerArgs) :
    HandleQLinearPoolOp args =
      if args.perm.length < 2 then (false, [])
      else if (args.node.GetAttributeIntDefault "channels_last" 0 = 0 ∧
            args.perm = ChannelLastToFirstPerm args.perm.length) ∨
          (args.node.GetAttributeIntDefault "channels_last" 0 ≠ 0 ∧
            args.perm_inv = ChannelLastToFirstPerm args.perm.length) then
        (true,
         [Effect.setAttrInt EffectTarget.original "channels_last"
            (1 - args.node.GetAttributeIntDefault "channels_last" 0),
          Effect.transposeFirstInput EffectTarget.original args.perm_inv,
          Effect.transposeOutputs EffectTarget.original args.perm])
      else (false, []) := rfl

/-- C4: the quantized-linear pool handler returns `false` with no mutation
when the pushed permutation's length is below 2; otherwise, with `c` the
node's `channels_last` attribute (default 0) and `p` the canonical
channel-last-to-first permutation for that length, exactly when `c = 0` and
the pushed permutation equals `p`, or `c ≠ 0` and the inverse permutation
equals `p`, it sets `channels_last` to `1 - c`, applies the inverse
permutation to the first input and the forward permutation to all outputs and
returns `true`; in every other case it returns `false` with no mutation. -/
theorem claim_C4_qlinear_pool (args : HandlerArgs) :
    (args.perm.length < 2 → HandleQLinearPoolOp args = (false, [])) ∧
    (2 ≤ args.perm.length →
      (((args.node.GetAttributeIntDefault "channels_last" 0 = 0 ∧
          args.perm = ChannelLastToFirstPerm args.perm.length) ∨
        (args.node.GetAttributeIntDefault "channels_last" 0 ≠ 0 ∧
          args.perm_inv = ChannelLastToFirstPerm args.perm.length)) →
        HandleQLinearPoolOp args =
          (true,
           [Effect.setAttrInt EffectTarget.original "channels_last"
              (1 - args.node.GetAttributeIntDefault "channels_last" 0),
            Effect.transposeFirstInput EffectTarget.original args.perm_inv,
            Effect.transposeOutputs EffectTarget.original args.perm])) ∧
      (¬ ((args.node.GetAttributeIntDefault "channels_last" 0 = 0 ∧
          args.perm = ChannelLastToFirstPerm args.perm.length) ∨
        (args.node.GetAttributeIntDefault "channels_last" 0 ≠ 0 ∧
          args.perm_inv = ChannelLastToFirstPerm args.perm.length)) →
        HandleQLinearPoolOp args = (false, []))) := by
  refine ⟨fun h => ?_, fun hrank => ⟨fun hc => ?_, fun hc => ?_⟩⟩
  · rw [handleQLinearPoolOp_spec, if_pos h]
  · rw [handleQLinearPoolOp_spec, if_neg (by omega), if_pos hc]
  · rw [handleQLinearPoolOp_spec, if_neg (by omega), if_neg hc]

/-- The handler arguments used by the accepting quantized-linear pool
witness: `channels_last` absent (default 0) and the canonical rank-4
permutation pushed. -/
def wQPoolArgs : HandlerArgs :=
  { ctx := wMaxPoolArgs.ctx,
    node := { id := 3, op_type := "QLinearAveragePool", domain := "com.microsoft",
              since_version := 1, inputs := ["x", "xs", "xz", "ys", "yz"],
              outputs := ["y"], attrs := [], ep := "CPUExecutionProvider" },
    perm := [0, 3, 1, 2], perm_inv := [0, 2, 3, 1] }

/-- The quantized-linear pool witness arguments with a rank-1 permutation. -/
def wQPoolArgsLow : HandlerArgs :=
  { wQPoolArgs with perm := [0], perm_inv := [0] }

/-- Witness for C4: the match case toggles `channels_last` from 0 to 1 and
transposes; the rank-1 case returns `false` with no mutation. -/
theorem claim_C4_qlinear_pool_witness :
    HandleQLinearPoolOp wQPoolArgs =
      (true,
       [Effect.setAttrInt EffectTarget.original "channels_last" 1,
        Effect.transposeFirstInput EffectTarget.original [0, 2, 3, 1],
        Effect.transposeOutputs EffectTarget.original [0, 3, 1, 2]]) ∧
    HandleQLinearPoolOp wQPoolArgsLow = (false, []) := by
  have h1 := ((claim_C4_qlinear_pool wQPoolArgs).2 (by decide)).1 (Or.inl ⟨by decide, by decide⟩)
  have h2 := (claim_C4_qlinear_pool wQPoolArgsLow).1 (by decide)
  exact ⟨h1.trans (by decide), h2⟩

/-- C5: the execution-target-aware Resize handler returns `false` with no
mutation whenever the node's assigned target is unset (empty) or is one of
the four layout-sensitive targets (CUDA, ROCm, QNN, internal testing); for
every other assigned target it returns exactly the generic Resize handler's
result. -/
theorem claim_C5_ep_aware_resize (handleResize : HandlerArgs → Bool × List Effect)
    (args : HandlerArgs) :
    (args.ctx.provider_type = "" ∨ args.ctx.provider_type ∈ EPsWithLayoutSensitiveResize →
      EPAwareHandleResize handleResize args = (false, [])) ∧
    (args.ctx.provider_type ≠ "" → args.ctx.provider_type ∉ EPsWithLayoutSensitiveResize →
      EPAwareHandleResize handleResize args = handleResize args) := by
  refine ⟨fun h => ?_, fun h1 h2 => ?_⟩
  · unfold EPAwareHandleResize
    rw [if_pos h]
  · unfold EPAwareHandleResize
    rw [if_neg (fun hc => hc.elim h1 h2)]

/-- The stand-in for the generic Resize handler used by the C5 witness. -/
def wResizeHandler : HandlerArgs → Bool × List Effect :=
  fun args => (true, [Effect.transposeOutputs EffectTarget.original args.perm])

/-- Witness for C5: with the provider set to CUDA the handler rejects; with
the CPU provider it returns exactly the generic handler's result. -/
theorem claim_C5_ep_aware_resize_witness :
    EPAwareHandleResize wResizeHandler
      { wMaxPoolArgs with ctx := { graph := wMaxPoolArgs.ctx.graph,
                                   provider_type := "CUDAExecutionProvider" } } = (false, []) ∧
    EPAwareHandleResize wResizeHandler wMaxPoolArgs = wResizeHandler wMaxPoolArgs :=
  ⟨(claim_C5_ep_aware_resize wResizeHandler
      { wMaxPoolArgs with ctx := { graph := wMaxPoolArgs.ctx.graph,
                                   provider_type := "CUDAExecutionProvider" } }).1
      (Or.inr (by decide)),
   (claim_C5_ep_aware_resize wResizeHandler wMaxPoolArgs).2 (by decide) (by decide)⟩

/-- `HandleMaxPoolPermCheckRank` with its local variables inlined. -/
theorem handleMaxPoolPermCheckRank_spec (args : HandlerArgs) :
    HandleMaxPoolPermCheckRank args =
      if args.node.ep ≠ "CPUExecutionProvider" then none
      else if args.node.outputs.length = 2 ∧ args.node.outputs.getD 1 "" ≠ "" then none
      else if (args.ctx.graph.valueInfo (args.node.outputs.getD 0 "")).dtype ≠ DataType.UINT8 ∧
          (args.ctx.graph.valueInfo (args.node.outputs.getD 0 "")).dtype ≠ DataType.INT8 then
        none
      else some args.perm.length := rfl

/-- The MaxPool handler arguments used by the C9 counterexample: provider,
output and dtype preconditions all hold, but the pushed permutation has
length 1. -/
def wRank1Args : HandlerArgs :=
  { wMaxPoolArgs with perm := [0], perm_inv := [0] }

/-- Counterexample to C9: on an invocation whose earlier guards all pass and
whose pushed permutation has length 1 < 2, `HandleMaxPool` does reach its
`ChannelLastToFirstPerm` call (line 94) at rank 1 — it does not establish
rank ≥ 2 before calling it, so the claim that every caller establishes the
rank-2 precondition is false. -/
theorem claim_C9_counterexample :
    wRank1Args.perm.length < 2 ∧
    HandleMaxPoolPermCheckRank wRank1Args = some 1 := by decide

/-- C9 (amended): the quantized-linear pool handler does establish rank ≥ 2
before calling `ChannelLastToFirstPerm` — for a pushed permutation of length
below 2 it returns `false` with no mutation and never reaches the call; the
MaxPool handler, by contrast, performs no rank check: whenever its provider,
output and dtype preconditions are satisfied it evaluates
`ChannelLastToFirstPerm` at the pushed permutation's length, even when that
length is below 2. -/
theorem claim_C9_rank_guard (args : HandlerArgs) :
    (args.perm.length < 2 →
      HandleQLinearPoolOpPermCheckRank args = none ∧
      HandleQLinearPoolOp args = (false, [])) ∧
    (args.node.ep = kCpuExecutionProvider →
      ¬ (args.node.outputs.length = 2 ∧ args.node.outputs.getD 1 "" ≠ "") →
      ((args.ctx.graph.valueInfo (args.node.outputs.getD 0 "")).dtype = DataType.UINT8 ∨
       (args.ctx.graph.valueInfo (args.node.outputs.getD 0 "")).dtype = DataType.INT8) →
      HandleMaxPoolPermCheckRank args = some args.perm.length) := by
  refine ⟨fun h => ⟨?_, ?_⟩, fun h1 h2 h3 => ?_⟩
  · unfold HandleQLinearPoolOpPermCheckRank
    rw [if_pos h]
  · rw [handleQLinearPoolOp_spec, if_pos h]
  · rw [handleMaxPoolPermCheckRank_spec, if_neg (fun hc => hc h1), if_neg h2,
      if_neg (fun hc => h3.elim hc.1 hc.2)]

/-- Witness for the amended C9: the rank-1 quantized-linear pool invocation
never reaches the call and rejects; the rank-1 MaxPool invocation with the
other preconditions satisfied reaches the call at rank 1. -/
theorem claim_C9_rank_guard_witness :
    HandleQLinearPoolOpPermCheckRank wQPoolArgsLow = none ∧
    HandleQLinearPoolOp wQPoolArgsLow = (false, []) ∧
    HandleMaxPoolPermCheckRank wRank1Args = some 1 := by
  obtain ⟨ha, hb⟩ := (claim_C9_rank_guard wQPoolArgsLow).1 (by decide)
  have hc := (claim_C9_rank_guard wRank1Args).2 (by decide) (by decide) (Or.inl (by decide))
  exact ⟨ha, hb, hc.trans (by decide)⟩

/-- `OrtEPCostCheck` with its local variables inlined. -/
theorem ortEPCostCheck_spec (graph : Graph) (node : Node) (perm : List Int)
    (outs : List String) :
    OrtEPCostCheck graph node perm outs =
      if node.ep = kCpuExecutionProvider then
        if node.IsOp "MaxPool" then CostCheckResult.kPushTranspose
        else
          if node.IsOp "Resize" then
            if (graph.valueInfo (node.inputs.getD 0 "")).shape.map List.length = some 4 ∧
                ((graph.valueInfo (node.inputs.getD 0 "")).dtype = DataType.UINT8 ∨
                 (graph.valueInfo (node.inputs.getD 0 "")).dtype = DataType.INT8) ∧
                node.GetAttributeString "mode" = some "linear" then
              CostCheckResult.kPushTranspose
            else CostCheckResult.kFallThrough
          else CostCheckResult.kFallThrough
      else CostCheckResult.kFallThrough := rfl

/-- C6: for a Resize node the cost policy returns force-push exactly when the
node's target is the CPU provider, input 0 has a known static shape of rank
exactly 4, input 0's element type is `UINT8` or `INT8`, and the `mode`
attribute is present and equals `"linear"`; when any condition fails it
returns fall-through. -/
theorem claim_C6_resize_cost (graph : Graph) (node : Node) (perm : List Int)
    (outs : List String) (hop : node.op_type = "Resize") :
    (OrtEPCostCheck graph node perm outs = CostCheckResult.kPushTranspose ↔
      (node.ep = kCpuExecutionProvider ∧
       (graph.valueInfo (node.inputs.getD 0 "")).shape.map List.length = some 4 ∧
       ((graph.valueInfo (node.inputs.getD 0 "")).dtype = DataType.UINT8 ∨
        (graph.valueInfo (node.inputs.getD 0 "")).dtype = DataType.INT8) ∧
       node.GetAttributeString "mode" = some "linear")) ∧
    (¬ (node.ep = kCpuExecutionProvider ∧
       (graph.valueInfo (node.inputs.getD 0 "")).shape.map List.length = some 4 ∧
       ((graph.valueInfo (node.inputs.getD 0 "")).dtype = DataType.UINT8 ∨
        (graph.valueInfo (node.inputs.getD 0 "")).dtype = DataType.INT8) ∧
       node.GetAttributeString "mode" = some "linear") →
      OrtEPCostCheck graph node perm outs = CostCheckResult.kFallThrough) := by
  rw [ortEPCostCheck_spec]
  simp only [Node.IsOp, hop]
  by_cases hcpu : node.ep = kCpuExecutionProvider
  · rw [if_pos hcpu, if_neg (by decide), if_pos (by decide)]
    by_cases hC : (graph.valueInfo (node.inputs.getD 0 "")).shape.map List.length = some 4 ∧
        ((graph.valueInfo (node.inputs.getD 0 "")).dtype = DataType.UINT8 ∨
         (graph.valueInfo (node.inputs.getD 0 "")).dtype = DataType.INT8) ∧
        node.GetAttributeString "mode" = some "linear"
    · rw [if_pos hC]
      exact ⟨iff_of_true rfl ⟨hcpu, hC⟩, fun hneg => absurd ⟨hcpu, hC⟩ hneg⟩
    · rw [if_neg hC]
      exact ⟨iff_of_false (by decide) (fun h => hC h.2), fun _ => rfl⟩
  · rw [if_neg hcpu]
    exact ⟨iff_of_false (by decide) (fun h => hcpu h.1), fun _ => rfl⟩

/-- The Resize node used by the C6 witness: CPU provider, rank-4 `UINT8`
input, `mode = "linear"`. -/
def wResizeNode : Node :=
  { id := 5, op_type := "Resize", domain := "", since_version := 13,
    inputs := ["x", "roi", "scales"], outputs := ["y"],
    attrs := [("mode", AttrValue.str "linear")], ep := "CPUExecutionProvider" }

/-- The graph used by the cost-policy witnesses: every value is a rank-4
`UINT8` tensor. -/
def wCostGraph : Graph :=
  { nodes := [wResizeNode],
    valueInfo := fun _ => { dtype := DataType.UINT8, shape := some [1, 56, 56, 3] } }

/-- Witness for C6: the eligible Resize node gets force-push; the same node
with `mode = "nearest"` gets fall-through. -/
theorem claim_C6_resize_cost_witness :
    OrtEPCostCheck wCostGraph wResizeNode [0, 3, 1, 2] [] = CostCheckResult.kPushTranspose ∧
    OrtEPCostCheck wCostGraph { wResizeNode with attrs := [("mode", AttrValue.str "nearest")] }
      [0, 3, 1, 2] [] = CostCheckResult.kFallThrough :=
  ⟨(claim_C6_resize_cost wCostGraph wResizeNode [0, 3, 1, 2] [] (by decide)).1.mpr
     ⟨by decide, by decide, Or.inl (by decide), by decide⟩,
   (claim_C6_resize_cost wCostGraph { wResizeNode with attrs := [("mode", AttrValue.str "nearest")] }
      [0, 3, 1, 2] [] (by decide)).2 (by decide)⟩

/-- C7: for a MaxPool node the cost policy returns force-push exactly when the
node's target is the CPU provider — regardless of shape, dtype or attributes —
and fall-through on every other target. -/
theorem claim_C7_maxpool_cost (graph : Graph) (node : Node) (perm : List Int)
    (outs : List String) (hop : node.op_type = "MaxPool") :
    (OrtEPCostCheck graph node perm outs = CostCheckResult.kPushTranspose ↔
      node.ep = kCpuExecutionProvider) ∧
    (node.ep ≠ kCpuExecutionProvider →
      OrtEPCostCheck graph node perm outs = CostCheckResult.kFallThrough) := by
  rw [ortEPCostCheck_spec]
  simp only [Node.IsOp, hop]
  by_cases hcpu : node.ep = kCpuExecutionProvider
  · rw [if_pos hcpu, if_pos (by decide)]
    exact ⟨iff_of_true rfl hcpu, fun h => absurd hcpu h⟩
  · rw [if_neg hcpu]
    exact ⟨iff_of_false (by decide) hcpu, fun _ => rfl⟩

/-- Witness for C7: a CPU MaxPool node gets force-push even with a `FLOAT`
output type; a CUDA MaxPool node gets fall-through. -/
theorem claim_C7_maxpool_cost_witness :
    OrtEPCostCheck { wCostGraph with valueInfo := fun _ => { dtype := DataType.FLOAT, shape := none } }
      wMaxPoolArgs.node [0, 3, 1, 2] [] = CostCheckResult.kPushTranspose ∧
    OrtEPCostCheck wCostGraph { wMaxPoolArgs.node with ep := "CUDAExecutionProvider" }
      [0, 3, 1, 2] [] = CostCheckResult.kFallThrough :=
  ⟨(claim_C7_maxpool_cost
      { wCostGraph with valueInfo := fun _ => { dtype := DataType.FLOAT, shape := none } }
      wMaxPoolArgs.node [0, 3, 1, 2] [] (by decide)).1.mpr (by decide),
   (claim_C7_maxpool_cost wCostGraph { wMaxPoolArgs.node with ep := "CUDAExecutionProvider" }
      [0, 3, 1, 2] [] (by decide)).2 (by decide)⟩

/-- C8: the baseline registry holds exactly the Resize entry (mapped to the
execution-target-aware Resize handler); the extended registry contains every
baseline entry in addition to the MaxPool entry and the domain-qualified
`com.microsoft` quantized-linear entries; looking up `Resize` in the extended
registry yields the same handler descriptor as in the baseline registry.
(Both registries are plain immutable values of this model, constructed once.) -/
theorem claim_C8_registries :
    OrtHandlers = [("Resize", HandlerInfoTag.ep_aware_resize_handler)] ∧
    (∀ k v, List.lookup k OrtHandlers = some v → List.lookup k OrtExtendedHandlers = some v) ∧
    List.lookup "Resize" OrtExtendedHandlers = List.lookup "Resize" OrtHandlers ∧
    List.lookup "MaxPool" OrtExtendedHandlers = some HandlerInfoTag.max_pool_op_handler ∧
    List.lookup "com.microsoft.QLinearAdd" OrtExtendedHandlers =
      some HandlerInfoTag.q_linear_binary_op_handler ∧
    List.lookup "com.microsoft.QLinearAveragePool" OrtExtendedHandlers =
      some HandlerInfoTag.q_linear_pool_op_handler ∧
    List.lookup "com.microsoft.QLinearConcat" OrtExtendedHandlers =
      some HandlerInfoTag.q_linear_concat_handler ∧
    List.lookup "com.microsoft.QLinearGlobalAveragePool" OrtExtendedHandlers =
      some HandlerInfoTag.q_linear_pool_op_handler ∧
    List.lookup "com.microsoft.QLinearLeakyRelu" OrtExtendedHandlers =
      some HandlerInfoTag.node_1_inp_handler ∧
    List.lookup "com.microsoft.QLinearMul" OrtExtendedHandlers =
      some HandlerInfoTag.q_linear_binary_op_handler ∧
    List.lookup "com.microsoft.QLinearReduceMean" OrtExtendedHandlers =
      some HandlerInfoTag.reduce_op_handler ∧
    List.lookup "com.microsoft.QLinearSigmoid" OrtExtendedHandlers =
      some HandlerInfoTag.node_1_inp_handler := by
  refine ⟨rfl, ?_, by decide, by decide, by decide, by decide, by decide, by decide,
    by decide, by decide, by decide, by decide⟩
  intro k v h
  simp only [OrtHandlers, List.lookup] at h
  split at h
  · rename_i hkr
    have hk : k = "Resize" := by simpa using hkr
    cases h
    rw [hk]
    decide
  · exact absurd h (by simp)

/-- Witness for C8: the baseline Resize entry is found unchanged in the
extended registry via the superset property. -/
theorem claim_C8_registries_witness :
    List.lookup "Resize" OrtExtendedHandlers = some HandlerInfoTag.ep_aware_resize_handler :=
  claim_C8_registries.2.1 "Resize" HandlerInfoTag.ep_aware_resize_handler (by decide)

/-- One constructor-loop step never lets the gradient-value list grow faster
than the gradient-input-name list, and on a gradient-name input whose
parameter is missing from the table the name list grows strictly while the
value list does not. -/
theorem moduleProcessInput_delta (parameters : List (String × Parameter))
    (f : String → Option String) (st0 : ModuleInitState) (a : String)
    (st1 : ModuleInitState)
    (h : moduleProcessInput parameters f st0 a = Except.ok st1) :
    st1.gradients.length + st0.grad_input_names.length ≤
      st1.grad_input_names.length + st0.gradients.length ∧
    (List.lookup a parameters = none →
      (∃ p, f a = some p ∧ List.lookup p parameters = none) →
      st1.gradients.length + st0.grad_input_names.length <
        st1.grad_input_names.length + st0.gradients.length) := by
  unfold moduleProcessInput at h
  split at h
  · rename_i p hp
    cases h
    refine ⟨by dsimp only; omega, fun hnone _ => ?_⟩
    simp [hnone] at hp
  · rename_i hl
    split at h
    · rename_i pn hf
      split at h
      · rename_i p hpn
        split at h
        · rename_i p2 s halloc
          cases h
          refine ⟨?_, fun _ hmiss => ?_⟩
          · dsimp only
            simp only [List.length_append, List.length_cons, List.length_nil]
            omega
          · obtain ⟨q, hq1, hq2⟩ := hmiss
            rw [hf] at hq1
            cases hq1
            simp [hq2] at hpn
        · cases h
      · rename_i hpn
        cases h
        refine ⟨?_, fun _ _ => ?_⟩
        · dsimp only
          simp only [List.length_append, List.length_cons, List.length_nil]
          omega
        · dsimp only
          simp only [List.length_append, List.length_cons, List.length_nil]
          omega
    · rename_i hf
      cases h
      refine ⟨by dsimp only; omega, fun _ hmiss => ?_⟩
      obtain ⟨p, hp1, _⟩ := hmiss
      rw [hf] at hp1
      cases hp1

/-- Over any run of the constructor loop that completes without an enforce
failure, the gradient-input-name list grows at least as much as the
gradient-value list, and strictly more when some input is a gradient name
whose parameter is missing from the table. -/
theorem moduleFold_counts (parameters : List (String × Parameter))
    (f : String → Option String) :
    ∀ (inputs : List String) (st0 st : ModuleInitState),
      List.foldlM (moduleProcessInput parameters f) st0 inputs = Except.ok st →
      st.gradients.length + st0.grad_input_names.length ≤
        st.grad_input_names.length + st0.gradients.length ∧
      ((∃ name ∈ inputs, List.lookup name parameters = none ∧
          ∃ p, f name = some p ∧ List.lookup p parameters = none) →
        st.gradients.length + st0.grad_input_names.length <
          st.grad_input_names.length + st0.gradients.length) := by
  intro inputs
  induction inputs with
  | nil =>
      intro st0 st h
      rw [List.foldlM_nil] at h
      have hst : st0 = st := by
        simpa [pure, Except.pure] using h
      subst hst
      exact ⟨by omega, fun hmiss => by
        obtain ⟨name, hmem, _⟩ := hmiss
        cases hmem⟩
  | cons a l ih =>
      intro st0 st h
      rw [List.foldlM_cons] at h
      cases hstep : moduleProcessInput parameters f st0 a with
      | error e => rw [hstep] at h; cases h
      | ok st1 =>
          rw [hstep] at h
          have h2 : List.foldlM (moduleProcessInput parameters f) st1 l = Except.ok st := h
          obtain ⟨ihle, ihlt⟩ := ih st1 st h2
          obtain ⟨dle, dlt⟩ := moduleProcessInput_delta parameters f st0 a st1 hstep
          constructor
          · omega
          · rintro ⟨name, hmem, hname⟩
            rcases List.mem_cons.mp hmem with hna | hnl
            · subst hna
              have := dlt hname.1 hname.2
              omega
            · have := ihlt ⟨name, hnl, hname⟩
              omega

/-- C10: in the `Module` constructor, an input name that parses as a gradient
name but whose parameter is absent from the parameter table raises no error
and allocates no gradient value — the step succeeds and only appends the name
to the gradient-input name list — so after the loop the gradient-input name
list is at least as long as the gradient-value list and strictly longer when
such a lookup miss occurs, while `TrainStep` feeds exactly the (shorter)
gradient-value list to the session. -/
theorem claim_C10_module_grad_miss (parameters : List (String × Parameter))
    (f : String → Option String) (inputs : List String) :
    (∀ st name, List.lookup name parameters = none →
      (∃ p, f name = some p ∧ List.lookup p parameters = none) →
      moduleProcessInput parameters f st name =
        Except.ok { st with grad_input_names := st.grad_input_names ++ [name] }) ∧
    (∀ st, moduleProcessTrainInputs parameters f inputs = Except.ok st →
      st.gradients.length ≤ st.grad_input_names.length ∧
      ((∃ name ∈ inputs, List.lookup name parameters = none ∧
          ∃ p, f name = some p ∧ List.lookup p parameters = none) →
        st.gradients.length < st.grad_input_names.length)) ∧
    (∀ st user_feeds reset_grad_input,
      moduleTrainStepFeeds user_feeds st reset_grad_input =
        user_feeds ++ st.weights ++ st.gradients ++ [reset_grad_input]) := by
  refine ⟨fun st name hl hmiss => ?_, fun st h => ?_, fun _ _ _ => rfl⟩
  · obtain ⟨p, hp1, hp2⟩ := hmiss
    simp only [moduleProcessInput, hl, hp1, hp2]
  · obtain ⟨hle, hlt⟩ := moduleFold_counts parameters f inputs ModuleInitState.empty st h
    constructor
    · simpa [ModuleInitState.empty] using hle
    · intro hmiss
      have := hlt hmiss
      simpa [ModuleInitState.empty] using this

/-- The parameter table used by the C10 witness: a single parameter `w` with
allocated data that requires a gradient. -/
def wParams : List (String × Parameter) :=
  [("w", { data_allocated := true, requires_grad := true, data := 10, gradient := 11 })]

/-- The gradient-name parser used by the C10 witness: strips a `_grad`
suffix. -/
def wGradParser : String → Option String :=
  fun s => if s = "w_grad" then some "w" else if s = "b_grad" then some "b" else none

/-- Witness for C10: with inputs `[x, w, w_grad, b_grad]`, the constructor
loop succeeds, `b_grad` (whose parameter `b` is missing) is appended to the
gradient-input names with no gradient value allocated, and the name list is
strictly longer than the value list fed by `TrainStep`. -/
theorem claim_C10_module_grad_miss_witness :
    moduleProcessInput wParams wGradParser
      { param_input_names := ["w"], grad_input_names := ["w_grad"],
        user_input_names := ["x"], weights := [10], gradients := [11] } "b_grad" =
      Except.ok
        { param_input_names := ["w"], grad_input_names := ["w_grad", "b_grad"],
          user_input_names := ["x"], weights := [10], gradients := [11] } ∧
    ({ param_input_names := ["w"], grad_input_names := ["w_grad", "b_grad"],
       user_input_names := ["x"], weights := [10],
       gradients := [11] } : ModuleInitState).gradients.length <
      ({ param_input_names := ["w"], grad_input_names := ["w_grad", "b_grad"],
         user_input_names := ["x"], weights := [10],
         gradients := [11] } : ModuleInitState).grad_input_names.length := by
  have h1 := (claim_C10_module_grad_miss wParams wGradParser
      ["x", "w", "w_grad", "b_grad"]).1
      { param_input_names := ["w"], grad_input_names := ["w_grad"],
        user_input_names := ["x"], weights := [10], gradients := [11] }
      "b_grad" (by decide) ⟨"b", by decide, by decide⟩
  have h2 := (claim_C10_module_grad_miss wParams wGradParser
      ["x", "w", "w_grad", "b_grad"]).2.1
      { param_input_names := ["w"], grad_input_names := ["w_grad", "b_grad"],
        user_input_names := ["x"], weights := [10], gradients := [11] }
      (by rfl)
  exact ⟨h1.trans (by rfl),
    h2.2 ⟨"b_grad", by decide, by decide, "b", by decide, by decide⟩⟩
